import Mathlib

/-!
# Verification of the ReAct agent loop (`src/react_agent/graph.py`)

A shallow embedding of the agent graph defined in `graph.py`:
the reasoning node `call_model`, the action node `dynamic_tools_node`,
and the routing function `route_model_output`, together with the
message data model they manipulate.  External collaborators that are
not part of the source file (the tool registry `get_tools`, the model
backend, the `add_messages` reducer of the conversation state, and
langgraph's `ToolNode`) are modelled from the specification's contracts
and marked as such in their doc comments.
-/

namespace ReactAgent

/-- A tool-call request issued by the model: unique call identifier,
tool name and argument payload (`tool_calls` entries of an `AIMessage`). -/
structure ToolCall where
  id : String
  name : String
  args : String
deriving DecidableEq, Repr

/-- The projection of langchain's `AIMessage` that `graph.py` manipulates:
the message identifier (`response.id`), the content text, and the ordered
list of tool-call requests (`response.tool_calls`). -/
structure AIMessage where
  id : String
  content : String
  tool_calls : List ToolCall
deriving DecidableEq, Repr

/-- The message kinds of the conversation history: system, human,
assistant (`AIMessage`) and tool-result (`ToolMessage`) messages.
A tool-result message carries the originating call identifier
(`tool_call_id`), the tool name, the output payload and a failure
indicator (langchain's `status="error"`). -/
inductive Message where
  | system (content : String)
  | human (content : String)
  | ai (msg : AIMessage)
  | tool (tool_call_id : String) (name : String) (content : String)
      (status_error : Bool)
deriving DecidableEq, Repr

/-- The Python class name of a message, as produced by
`type(last_message).__name__` in `route_model_output`. -/
def Message.typeName : Message → String
  | .system _ => "SystemMessage"
  | .human _ => "HumanMessage"
  | .ai _ => "AIMessage"
  | .tool _ _ _ _ => "ToolMessage"

/-- Whether a message is an assistant message
(`isinstance(last_message, AIMessage)`). -/
def Message.isAI : Message → Bool
  | .ai _ => true
  | _ => false

/-- Whether a message is a system message. -/
def Message.isSystem : Message → Bool
  | .system _ => true
  | _ => false

/-- The agent state of `react_agent/state.py`: the conversation messages
plus the framework-managed `is_last_step` flag. -/
structure State where
  messages : List Message
  is_last_step : Bool
deriving DecidableEq, Repr

/-- Modelled from the spec: the `add_messages` reducer of the conversation
state (`react_agent/state.py`, not under `src/`): "an ordered, append-only
sequence of Messages", "mutated exclusively by the Loop Controller
appending new messages after each phase". -/
def addMessages (old new : List Message) : List Message :=
  old ++ new

/-- A tool descriptor as returned by the tool registry (the source only
passes descriptors around, so the name suffices). -/
structure Tool where
  name : String
deriving DecidableEq, Repr

/-- One invocation of the bound model: the message list passed to
`model.ainvoke` and the tool set bound with `bind_tools`. -/
structure ModelCall where
  input : List Message
  tools : List Tool
deriving DecidableEq, Repr

/-- The per-invocation environment of `call_model`: the run configuration
(`runtime.context`), the current clock reading, the tool registry's
current answer, and the model backend. -/
structure Runtime where
  model : String
  system_prompt : String
  now : String
  registry : List Tool
  respond : ModelCall → AIMessage

/-- Modelled from the spec: `get_tools() → set of ToolDescriptor`
(`common/tools.py`, not under `src/`), an external lookup that "returns
the currently enabled tools"; each call reads the registry as currently
configured, which the `Runtime` of the invocation carries. -/
def get_tools (rt : Runtime) : List Tool :=
  rt.registry

/-- The fixed budget-exceeded notice substituted by `call_model` when
the step budget is exhausted while tools were still requested. -/
def budgetExceededNotice : String :=
  "Sorry, I could not find an answer to your question in the specified number of steps."

/-- Substitution of every occurrence of a pattern in a character list,
by structural recursion on a fuel bound (each step consumes at least one
character, so fuel equal to the input length suffices). -/
def substChars (pat sub : List Char) : Nat → List Char → List Char
  | 0, s => s
  | _ + 1, [] => []
  | fuel + 1, c :: cs =>
    if pat.isPrefixOf (c :: cs) ∧ 0 < pat.length then
      sub ++ substChars pat sub fuel (List.drop (pat.length - 1) cs)
    else
      c :: substChars pat sub fuel cs

/-- Python's `runtime.context.system_prompt.format(system_time=...)`: the
system prompt template with every `system_time` placeholder replaced by
the current timestamp. -/
def formatSystemPrompt (template now : String) : String :=
  ⟨substChars "{system_time}".toList now.toList template.toList.length template.toList⟩

/-- The model invocation `call_model` performs (lines 36-53 of
`graph.py`): fetch the available tools via `get_tools`, bind them to the
model, and pass the freshly formatted system message prepended to the
state's messages. -/
def call_model_model_call (state : State) (rt : Runtime) : ModelCall :=
  let available_tools := get_tools rt
  let system_message := formatSystemPrompt rt.system_prompt rt.now
  { input := Message.system system_message :: state.messages
    tools := available_tools }

/-- The model's response in `call_model`: the backend applied to the
model call. -/
def call_model_response (state : State) (rt : Runtime) : AIMessage :=
  rt.respond (call_model_model_call state rt)

/-- The reasoning node `call_model` (lines 22-67 of `graph.py`): obtain the model's
response; if `state.is_last_step and response.tool_calls`, return a
single fresh `AIMessage(id=response.id, content=<notice>)` in place of
the response, otherwise return the response itself.  The returned list
is the `"messages"` value handed to the reducer. -/
def call_model (state : State) (rt : Runtime) : List Message :=
  let response := call_model_response state rt
  if state.is_last_step && !response.tool_calls.isEmpty then
    [Message.ai { id := response.id, content := budgetExceededNotice, tool_calls := [] }]
  else
    [Message.ai response]

/-- The outcome of one tool invocation: output payload and failure flag. -/
structure ToolOutcome where
  output : String
  failed : Bool
deriving DecidableEq, Repr

/-- Modelled from the spec: execution of a single tool-call request by
langgraph's `ToolNode` (external collaborator): "invoke_tool(call) →
ToolResult ... must not throw for ordinary tool-level failures — it
returns a result carrying a failure indicator instead"; the result
carries the originating call identifier and the tool name. -/
def runToolCall (impl : ToolCall → ToolOutcome) (c : ToolCall) : Message :=
  Message.tool c.id c.name (impl c).output (impl c).failed

/-- Modelled from the spec: `ToolNode(available_tools).ainvoke(state)`
(langgraph, external): reads the tool-call requests of the last message,
which must be an assistant message, and produces "one-to-one with inputs,
same order" a Tool Result message per request; `none` models the error
`ToolNode` raises when the last message is not an assistant message. -/
def tool_node_run (impl : ToolCall → ToolOutcome) (msgs : List Message) :
    Option (List Message) :=
  match msgs.getLast? with
  | some (Message.ai m) => some (m.tool_calls.map (runToolCall impl))
  | _ => none

/-- The action node `dynamic_tools_node` (lines 70-87 of `graph.py`): fetch the available
tools via `get_tools`, build a `ToolNode` over them, and run it on the
state.  `toolImpl` is the executor the available tools induce. -/
def dynamic_tools_node (rt : Runtime) (toolImpl : List Tool → ToolCall → ToolOutcome)
    (state : State) : Option (List Message) :=
  let available_tools := get_tools rt
  tool_node_run (toolImpl available_tools) state.messages

/-- The errors `route_model_output` can raise: the `IndexError` of
`state.messages[-1]` on an empty history, and the `ValueError` raised
when the last message is not an assistant message (the spec's
`InvalidState`). -/
inductive RouteError where
  | indexError
  | invalidState (msg : String)
deriving DecidableEq, Repr

/-- The two routes `route_model_output` can return. -/
inductive Route where
  | «__end__»
  | tools
deriving DecidableEq, Repr

/-- The routing decision `route_model_output` (lines 103-123 of `graph.py`): inspect
`state.messages[-1]`; raise `ValueError` if it is not an `AIMessage`;
return `"__end__"` if it has no tool calls, else `"tools"`. -/
def route_model_output (state : State) : Except RouteError Route :=
  match state.messages.getLast? with
  | none => .error .indexError
  | some last =>
    match last with
    | .ai m =>
      if m.tool_calls.isEmpty then .ok .«__end__» else .ok .tools
    | other =>
      .error (.invalidState
        ("Expected AIMessage in output edges, but got " ++ other.typeName))

/-- Terminal status of a run of the compiled graph, per the spec's run
entry point contract (`Completed`, `BudgetExceeded`; `failed` covers a
surfaced error, `outOfFuel` marks an unfinished unrolling). -/
inductive Status where
  | completed
  | budgetExceeded
  | failed
  | outOfFuel
deriving DecidableEq, Repr

/-- The environment of a whole run: the run configuration together with
the external collaborators, indexed by reasoning cycle so that the tool
registry's answer, the model backend's answer and the clock may differ
from cycle to cycle. -/
structure RunEnv where
  model : String
  system_prompt : String
  registryAt : Nat → List Tool
  respondAt : Nat → ModelCall → AIMessage
  nowAt : Nat → String
  toolImplAt : Nat → List Tool → ToolCall → ToolOutcome

/-- The per-invocation runtime seen by cycle `k` of a run. -/
def runtimeAt (env : RunEnv) (k : Nat) : Runtime :=
  { model := env.model
    system_prompt := env.system_prompt
    now := env.nowAt k
    registry := env.registryAt k
    respond := env.respondAt k }

/-- Modelled from the spec: `is_last_step` as managed by the framework
(`react_agent/state.py`, not under `src/`): "true when the step counter
reaches the configured maximum on the current iteration"; at 0-based
reasoning cycle `k` the counter reaches `k + 1`. -/
def isLastStepAt (maxSteps k : Nat) : Bool :=
  decide (maxSteps ≤ k + 1)

/-- The outcome of a run: the final conversation state, the trace of
model invocations made by the reasoning cycles in order, and the
terminal status. -/
structure RunResult where
  messages : List Message
  modelCalls : List ModelCall
  status : Status

/-- One unrolling of the compiled graph's cycle
`call_model → route_model_output → tools → call_model → ...`:
at cycle `k`, run `call_model`, append its messages, route on the new
last message, and either stop or run `dynamic_tools_node`, append its
results and recurse.  `fuel` bounds the unrolling; `calls` accumulates
the model invocations made so far. -/
def runCycles (env : RunEnv) (maxSteps : Nat) :
    Nat → Nat → List Message → List ModelCall → RunResult
  | 0, _, msgs, calls => ⟨msgs, calls, .outOfFuel⟩
  | fuel + 1, k, msgs, calls =>
    let st : State := ⟨msgs, isLastStepAt maxSteps k⟩
    let rt := runtimeAt env k
    let mc := call_model_model_call st rt
    let msgs1 := addMessages msgs (call_model st rt)
    let calls1 := calls ++ [mc]
    match route_model_output ⟨msgs1, st.is_last_step⟩ with
    | .ok .«__end__» =>
      if st.is_last_step && !(call_model_response st rt).tool_calls.isEmpty then
        ⟨msgs1, calls1, .budgetExceeded⟩
      else
        ⟨msgs1, calls1, .completed⟩
    | .ok .tools =>
      match dynamic_tools_node rt (env.toolImplAt k) ⟨msgs1, st.is_last_step⟩ with
      | some results =>
        runCycles env maxSteps fuel (k + 1) (addMessages msgs1 results) calls1
      | none => ⟨msgs1, calls1, .failed⟩
    | .error _ => ⟨msgs1, calls1, .failed⟩

/-- A whole run: start at cycle 0 from the initial messages with an
empty invocation trace. -/
def runReact (env : RunEnv) (maxSteps fuel : Nat) (init : List Message) : RunResult :=
  runCycles env maxSteps fuel 0 init []

/-! Concrete sample inputs, used to exercise the theorems below on
closed instances. -/

/-- A sample pending tool-call request. -/
def sampleToolCall : ToolCall :=
  { id := "call_1", name := "search", args := "weather" }

/-- A sample model response that requests one tool call. -/
def sampleAI : AIMessage :=
  { id := "msg_1", content := "", tool_calls := [sampleToolCall] }

/-- A sample final model response with no tool calls. -/
def sampleFinalAI : AIMessage :=
  { id := "msg_2", content := "4", tool_calls := [] }

/-- A sample runtime whose backend always requests one tool call. -/
def sampleRuntime : Runtime :=
  { model := "qwen:qwen-flash"
    system_prompt := "You are a helpful AI assistant. System time: {system_time}"
    now := "2024-01-01T00:00:00+00:00"
    registry := [{ name := "search" }]
    respond := fun _ => sampleAI }

/-- A sample state sitting at the last permitted step. -/
def sampleLastStepState : State :=
  ⟨[Message.human "What is the weather?"], true⟩

/-- A sample tool executor that echoes the arguments and never fails. -/
def sampleImpl : ToolCall → ToolOutcome :=
  fun c => { output := c.args, failed := false }

/-- A sample run environment whose registry and backend change between
cycles: cycle 0 requests a tool call, cycle 1 answers finally. -/
def sampleEnv : RunEnv :=
  { model := "qwen:qwen-flash"
    system_prompt := "prompt"
    registryAt := fun k => if k = 0 then [{ name := "search" }] else [{ name := "calc" }]
    respondAt := fun k _ => if k = 0 then sampleAI else sampleFinalAI
    nowAt := fun _ => "t"
    toolImplAt := fun _ _ c => { output := c.args, failed := false } }

/-- A sample state whose last message is a final assistant message. -/
def sampleEndState : State :=
  ⟨[Message.human "What is 2+2?", Message.ai sampleFinalAI], false⟩

/-- A sample state whose last message is an assistant message with one
pending tool call. -/
def sampleToolsState : State :=
  ⟨[Message.human "What is the weather?", Message.ai sampleAI], false⟩

/-- A sample state whose last message is not an assistant message. -/
def sampleHumanLastState : State :=
  ⟨[Message.ai sampleFinalAI, Message.human "thanks"], false⟩

/-! Helper lemmas about the run driver. -/

/-- Each unrolling of the run only appends to the conversation. -/
lemma runCycles_messages_append (env : RunEnv) (maxSteps : Nat) :
    ∀ fuel k msgs calls, ∃ t,
      (runCycles env maxSteps fuel k msgs calls).messages = msgs ++ t := by
  intro fuel
  induction fuel with
  | zero => intro k msgs calls; exact ⟨[], by simp [runCycles]⟩
  | succ n ih =>
    intro k msgs calls
    simp only [runCycles]
    rcases hroute : route_model_output
        ⟨addMessages msgs (call_model ⟨msgs, isLastStepAt maxSteps k⟩ (runtimeAt env k)),
          isLastStepAt maxSteps k⟩ with e | r
    · exact ⟨call_model ⟨msgs, isLastStepAt maxSteps k⟩ (runtimeAt env k), by
        simp [hroute, addMessages]⟩
    · cases r with
      | «__end__» =>
        refine ⟨call_model ⟨msgs, isLastStepAt maxSteps k⟩ (runtimeAt env k), ?_⟩
        simp only [hroute]
        split <;> simp [addMessages]
      | tools =>
        rcases htools : dynamic_tools_node (runtimeAt env k)
            (env.toolImplAt k)
            ⟨addMessages msgs (call_model ⟨msgs, isLastStepAt maxSteps k⟩ (runtimeAt env k)),
              isLastStepAt maxSteps k⟩ with _ | results
        · exact ⟨call_model ⟨msgs, isLastStepAt maxSteps k⟩ (runtimeAt env k), by
            simp [hroute, htools, addMessages]⟩
        · obtain ⟨t, ht⟩ := ih (k + 1)
            (addMessages
              (addMessages msgs (call_model ⟨msgs, isLastStepAt maxSteps k⟩ (runtimeAt env k)))
              results)
            (calls ++ [call_model_model_call ⟨msgs, isLastStepAt maxSteps k⟩ (runtimeAt env k)])
          refine ⟨call_model ⟨msgs, isLastStepAt maxSteps k⟩ (runtimeAt env k) ++ (results ++ t), ?_⟩
          simp only [hroute, htools]
          simp only [addMessages, List.append_assoc] at ht ⊢
          exact ht

/-- The tool set bound by the single reasoning invocation of cycle `k`
is the registry's answer at cycle `k`. -/
lemma call_model_model_call_tools_at (env : RunEnv) (k : Nat) (st : State) :
    (call_model_model_call st (runtimeAt env k)).tools = env.registryAt k := by
  simp [call_model_model_call, get_tools, runtimeAt]

/-- Auxiliary: the one-invocation trace satisfies the registry-freshness
property. -/
lemma singleton_call_tools_at (env : RunEnv) (maxSteps k : Nat) (msgs : List Message) :
    ∀ j mc,
      ([call_model_model_call ⟨msgs, isLastStepAt maxSteps k⟩ (runtimeAt env k)])[j]? =
        some mc →
      mc.tools = env.registryAt (k + j) := by
  intro j mc h
  cases j with
  | zero =>
    simp only [List.getElem?_cons_zero, Option.some.injEq] at h
    subst h
    simpa using call_model_model_call_tools_at env k ⟨msgs, isLastStepAt maxSteps k⟩
  | succ j => simp at h

/-- The run's model-invocation trace extends the accumulated trace, and
the invocation appended for cycle `k + j` binds exactly the tool
registry's answer at cycle `k + j`: no tool set is carried over from an
earlier cycle. -/
lemma runCycles_modelCalls_tools (env : RunEnv) (maxSteps : Nat) :
    ∀ fuel k msgs calls, ∃ tail,
      (runCycles env maxSteps fuel k msgs calls).modelCalls = calls ++ tail ∧
      ∀ j mc, tail[j]? = some mc → mc.tools = env.registryAt (k + j) := by
  intro fuel
  induction fuel with
  | zero =>
    intro k msgs calls
    exact ⟨[], by simp [runCycles], by intro j mc h; simp at h⟩
  | succ n ih =>
    intro k msgs calls
    simp only [runCycles]
    rcases hroute : route_model_output
        ⟨addMessages msgs (call_model ⟨msgs, isLastStepAt maxSteps k⟩ (runtimeAt env k)),
          isLastStepAt maxSteps k⟩ with e | r
    · exact ⟨[call_model_model_call ⟨msgs, isLastStepAt maxSteps k⟩ (runtimeAt env k)],
        by simp [hroute], singleton_call_tools_at env maxSteps k msgs⟩
    · cases r with
      | «__end__» =>
        refine ⟨[call_model_model_call ⟨msgs, isLastStepAt maxSteps k⟩ (runtimeAt env k)],
          ?_, singleton_call_tools_at env maxSteps k msgs⟩
        simp only [hroute]
        split <;> rfl
      | tools =>
        rcases htools : dynamic_tools_node (runtimeAt env k)
            (env.toolImplAt k)
            ⟨addMessages msgs (call_model ⟨msgs, isLastStepAt maxSteps k⟩ (runtimeAt env k)),
              isLastStepAt maxSteps k⟩ with _ | results
        · exact ⟨[call_model_model_call ⟨msgs, isLastStepAt maxSteps k⟩ (runtimeAt env k)],
            by simp [hroute, htools], singleton_call_tools_at env maxSteps k msgs⟩
        · obtain ⟨tail, htail, hspec⟩ := ih (k + 1)
            (addMessages
              (addMessages msgs (call_model ⟨msgs, isLastStepAt maxSteps k⟩ (runtimeAt env k)))
              results)
            (calls ++ [call_model_model_call ⟨msgs, isLastStepAt maxSteps k⟩ (runtimeAt env k)])
          refine ⟨call_model_model_call ⟨msgs, isLastStepAt maxSteps k⟩ (runtimeAt env k) :: tail,
            ?_, ?_⟩
          · simp only [hroute, htools]
            rw [htail, List.append_assoc, List.singleton_append]
          · intro j mc h
            cases j with
            | zero =>
              simp only [List.getElem?_cons_zero, Option.some.injEq] at h
              subst h
              simpa using call_model_model_call_tools_at env k ⟨msgs, isLastStepAt maxSteps k⟩
            | succ j =>
              simp only [List.getElem?_cons_succ] at h
              have hidx : k + (j + 1) = k + 1 + j := by omega
              rw [hidx]
              exact hspec j mc h

/-! Claim theorems. -/

/-- C1: For every state in which `is_last_step` is true and every model
response that requests at least one tool call, `call_model` returns a
single assistant message whose tool-call request list is empty and whose
content equals the fixed budget-exceeded notice, and this message is
appended in place of the model's response. -/
theorem call_model_budget_exceeded_rewrite (st : State) (rt : Runtime)
    (hlast : st.is_last_step = true)
    (htc : (call_model_response st rt).tool_calls ≠ []) :
    call_model st rt =
      [Message.ai { id := (call_model_response st rt).id
                    content := budgetExceededNotice
                    tool_calls := [] }] := by
  have h1 : (call_model_response st rt).tool_calls.isEmpty = false := by
    simpa [List.isEmpty_iff] using htc
  simp [call_model, hlast, h1]

/-- Witness: the budget-exceeded rewrite at a concrete last-step state
whose backend requests one tool call. -/
theorem call_model_budget_exceeded_rewrite_witness :
    (call_model_response sampleLastStepState sampleRuntime).tool_calls =
      [sampleToolCall] ∧
    call_model sampleLastStepState sampleRuntime =
      [Message.ai { id := "msg_1", content := budgetExceededNotice,
                    tool_calls := [] }] := by
  refine ⟨by decide, ?_⟩
  have h :=
    call_model_budget_exceeded_rewrite sampleLastStepState sampleRuntime rfl (by decide)
  exact h.trans (by decide)

/-- C2: For every state whose last message is an assistant message, the
routing decision returns the terminal route when that message's
tool-call request list is empty, and returns the action route when it
contains at least one entry and the cycle is not the last permitted
step. -/
theorem route_model_output_assistant_routes (st : State) (m : AIMessage)
    (hlast : st.messages.getLast? = some (Message.ai m)) :
    (m.tool_calls = [] → route_model_output st = .ok .«__end__») ∧
    (m.tool_calls ≠ [] → st.is_last_step = false →
      route_model_output st = .ok .tools) := by
  constructor
  · intro h
    simp [route_model_output, hlast, h]
  · intro h _
    have h1 : m.tool_calls.isEmpty = false := by
      simpa [List.isEmpty_iff] using h
    simp [route_model_output, hlast, h1]

/-- Witness: both routes at concrete states. -/
theorem route_model_output_assistant_routes_witness :
    route_model_output sampleEndState = .ok .«__end__» ∧
    route_model_output sampleToolsState = .ok .tools :=
  ⟨(route_model_output_assistant_routes sampleEndState sampleFinalAI
      (by decide)).1 (by decide),
   (route_model_output_assistant_routes sampleToolsState sampleAI
      (by decide)).2 (by decide) rfl⟩

/-- C3: For every state whose last message is not an assistant message,
the routing decision raises the `InvalidState` error (Python's
`ValueError`) rather than returning a route, and this is the only error
the routing decision originates once a last message exists. -/
theorem route_model_output_invalid_state_error (st : State) (last : Message)
    (hlast : st.messages.getLast? = some last) :
    (last.isAI = false →
      route_model_output st =
        .error (.invalidState
          ("Expected AIMessage in output edges, but got " ++ last.typeName))) ∧
    (∀ e, route_model_output st = .error e → ∃ s, e = .invalidState s) := by
  constructor
  · intro hAI
    cases last with
    | ai m => simp [Message.isAI] at hAI
    | system c => simp [route_model_output, hlast, Message.typeName]
    | human c => simp [route_model_output, hlast, Message.typeName]
    | tool a b c d => simp [route_model_output, hlast, Message.typeName]
  · intro e he
    cases last with
    | ai m =>
      by_cases hc : m.tool_calls.isEmpty <;>
        simp [route_model_output, hlast, hc] at he
    | system c =>
      simp only [route_model_output, hlast, Except.error.injEq] at he
      exact ⟨_, he.symm⟩
    | human c =>
      simp only [route_model_output, hlast, Except.error.injEq] at he
      exact ⟨_, he.symm⟩
    | tool a b c d =>
      simp only [route_model_output, hlast, Except.error.injEq] at he
      exact ⟨_, he.symm⟩

/-- Witness: routing on a state whose last message is a human message
raises the `InvalidState` error naming the offending type. -/
theorem route_model_output_invalid_state_error_witness :
    route_model_output sampleHumanLastState =
      .error (.invalidState
        "Expected AIMessage in output edges, but got HumanMessage") := by
  have h :=
    (route_model_output_invalid_state_error sampleHumanLastState
      (Message.human "thanks") (by decide)).1 (by decide)
  exact h.trans rfl

/-- C4: The conversation state never shrinks: applying the reducer to
the output of `call_model` or of `dynamic_tools_node` only appends
messages, every unrolling of the run only appends, and the run's final
message count is at least the initial one. -/
theorem conversation_state_append_only :
    (∀ (st : State) (rt : Runtime), ∃ t,
        addMessages st.messages (call_model st rt) = st.messages ++ t) ∧
    (∀ (rt : Runtime) (impl : List Tool → ToolCall → ToolOutcome) (st : State)
        (results : List Message),
        dynamic_tools_node rt impl st = some results →
        ∃ t, addMessages st.messages results = st.messages ++ t) ∧
    (∀ (env : RunEnv) (maxSteps fuel k : Nat) (msgs : List Message)
        (calls : List ModelCall), ∃ t,
        (runCycles env maxSteps fuel k msgs calls).messages = msgs ++ t) ∧
    (∀ (env : RunEnv) (maxSteps fuel : Nat) (init : List Message),
        init.length ≤ (runReact env maxSteps fuel init).messages.length) := by
  refine ⟨fun st rt => ⟨call_model st rt, rfl⟩,
          fun rt impl st results _ => ⟨results, rfl⟩,
          fun env maxSteps fuel k msgs calls =>
            runCycles_messages_append env maxSteps fuel k msgs calls,
          fun env maxSteps fuel init => ?_⟩
  obtain ⟨t, ht⟩ := runCycles_messages_append env maxSteps fuel 0 init []
  have h : (runReact env maxSteps fuel init).messages = init ++ t := ht
  rw [h]
  simp

/-- Witness: the reducer appends the tool results of a concrete action
step. -/
theorem conversation_state_append_only_witness :
    addMessages sampleToolsState.messages
        [Message.tool "call_1" "search" "weather" false] =
      sampleToolsState.messages ++
        [Message.tool "call_1" "search" "weather" false] := by
  obtain ⟨t, ht⟩ :=
    conversation_state_append_only.2.1 sampleRuntime (fun _ => sampleImpl)
      sampleToolsState [Message.tool "call_1" "search" "weather" false] (by decide)
  have h2 : sampleToolsState.messages ++ t =
      sampleToolsState.messages ++
        [Message.tool "call_1" "search" "weather" false] := by
    rw [← ht]
    rfl
  exact ht.trans h2

/-- C5: For the ordered tool-call requests of the last assistant
message, the tool executor produces exactly one tool-result message per
request, carrying the request's call identifier, in request order; a
failing tool call still yields its result message with its failure
indicator rather than being dropped. -/
theorem tool_executor_one_result_per_request (rt : Runtime)
    (impl : List Tool → ToolCall → ToolOutcome) (st : State) (m : AIMessage)
    (hlast : st.messages.getLast? = some (Message.ai m)) :
    dynamic_tools_node rt impl st =
      some (m.tool_calls.map (runToolCall (impl (get_tools rt)))) ∧
    (m.tool_calls.map (runToolCall (impl (get_tools rt)))).length =
      m.tool_calls.length ∧
    ∀ (i : Nat) (c : ToolCall), m.tool_calls[i]? = some c →
      (m.tool_calls.map (runToolCall (impl (get_tools rt))))[i]? =
        some (Message.tool c.id c.name
          (impl (get_tools rt) c).output (impl (get_tools rt) c).failed) := by
  refine ⟨?_, by simp, ?_⟩
  · simp [dynamic_tools_node, tool_node_run, hlast]
  · intro i c hc
    simp [List.getElem?_map, hc, runToolCall]

/-- Witness: one concrete request yields exactly its one tool-result
message. -/
theorem tool_executor_one_result_per_request_witness :
    dynamic_tools_node sampleRuntime (fun _ => sampleImpl) sampleToolsState =
      some [Message.tool "call_1" "search" "weather" false] := by
  have h :=
    (tool_executor_one_result_per_request sampleRuntime (fun _ => sampleImpl)
      sampleToolsState sampleAI (by decide)).1
  exact h.trans (by decide)

/-- C6: The routing decision is a pure function of the last message:
any two states with the same last message route identically, whatever
their earlier messages and their `is_last_step` flag. -/
theorem route_model_output_depends_only_on_last (s1 s2 : State)
    (h : s1.messages.getLast? = s2.messages.getLast?) :
    route_model_output s1 = route_model_output s2 := by
  unfold route_model_output
  rw [h]

/-- Witness: two states differing in prefix and step flag but sharing
the last message route identically. -/
theorem route_model_output_depends_only_on_last_witness :
    route_model_output ⟨[Message.human "a", Message.ai sampleFinalAI], true⟩ =
      route_model_output ⟨[Message.ai sampleFinalAI], false⟩ :=
  route_model_output_depends_only_on_last
    ⟨[Message.human "a", Message.ai sampleFinalAI], true⟩
    ⟨[Message.ai sampleFinalAI], false⟩ (by decide)

/-- C7: Every reasoning invocation binds to the model call exactly the
tool set `get_tools` returns for that invocation, and across a whole run
the invocation of cycle `i` is offered exactly the registry's answer at
cycle `i` — no tool set is cached across cycles. -/
theorem reasoning_binds_fresh_tool_registry :
    (∀ (st : State) (rt : Runtime),
        (call_model_model_call st rt).tools = get_tools rt) ∧
    (∀ (env : RunEnv) (maxSteps fuel : Nat) (init : List Message) (i : Nat)
        (mc : ModelCall),
        (runReact env maxSteps fuel init).modelCalls[i]? = some mc →
        mc.tools = env.registryAt i) := by
  constructor
  · intro st rt
    rfl
  · intro env maxSteps fuel init i mc h
    obtain ⟨tail, htail, hspec⟩ :=
      runCycles_modelCalls_tools env maxSteps fuel 0 init []
    have htail' : (runReact env maxSteps fuel init).modelCalls = tail := by
      simpa [runReact] using htail
    rw [htail'] at h
    simpa using hspec i mc h

/-- Witness: in a two-cycle run whose registry changes between cycles,
the second invocation is offered the second cycle's registry. -/
theorem reasoning_binds_fresh_tool_registry_witness :
    ((runReact sampleEnv 5 5 [Message.human "hi"]).modelCalls[1]?.map
        ModelCall.tools) =
      some (sampleEnv.registryAt 1) := by
  rcases hmc : (runReact sampleEnv 5 5 [Message.human "hi"]).modelCalls[1]?
    with _ | mc
  · exact absurd hmc (by decide)
  · exact congrArg some
      (reasoning_binds_fresh_tool_registry.2 sampleEnv 5 5 [Message.human "hi"]
        1 mc hmc)

/-- C8: The system message is synthesized per call from the configured
template and the current timestamp and prepended only to the message
list passed to the model; `call_model` returns a single assistant
message, so no system message is ever appended to the conversation
state. -/
theorem system_message_not_persisted (st : State) (rt : Runtime) :
    (call_model_model_call st rt).input =
      Message.system (formatSystemPrompt rt.system_prompt rt.now) ::
        st.messages ∧
    ∃ m : AIMessage, call_model st rt = [Message.ai m] := by
  refine ⟨rfl, ?_⟩
  rcases hb : st.is_last_step && !(call_model_response st rt).tool_calls.isEmpty
    with _ | _
  · exact ⟨call_model_response st rt, by simp [call_model, hb]⟩
  · exact ⟨{ id := (call_model_response st rt).id,
             content := budgetExceededNotice, tool_calls := [] },
      by simp [call_model, hb]⟩

/-- C9: When `call_model` rewrites the model's response under the
exhausted step budget, the rewritten assistant message keeps the
response's message identifier: it equals the response with only the
content and the tool-call requests replaced. -/
theorem budget_rewrite_preserves_message_id (st : State) (rt : Runtime)
    (hlast : st.is_last_step = true)
    (htc : (call_model_response st rt).tool_calls ≠ []) :
    ∃ m : AIMessage, call_model st rt = [Message.ai m] ∧
      m.id = (call_model_response st rt).id ∧
      m = { call_model_response st rt with
              content := budgetExceededNotice, tool_calls := [] } := by
  refine ⟨{ call_model_response st rt with
              content := budgetExceededNotice, tool_calls := [] }, ?_, rfl, rfl⟩
  have h1 : (call_model_response st rt).tool_calls.isEmpty = false := by
    simpa [List.isEmpty_iff] using htc
  simp [call_model, hlast, h1]

/-- Witness: the concrete rewritten message keeps the response's
identifier `msg_1`. -/
theorem budget_rewrite_preserves_message_id_witness :
    call_model sampleLastStepState sampleRuntime =
      [Message.ai { id := (call_model_response sampleLastStepState
                            sampleRuntime).id,
                    content := budgetExceededNotice, tool_calls := [] }] ∧
    (call_model_response sampleLastStepState sampleRuntime).id = "msg_1" := by
  obtain ⟨m, hm, hid, hrec⟩ :=
    budget_rewrite_preserves_message_id sampleLastStepState sampleRuntime rfl
      (by decide)
  refine ⟨?_, by decide⟩
  rw [hm, hrec]

/-- C10: The routing decision presupposes a non-empty conversation: on
every state with at least one message the last-message access succeeds
and the index error cannot arise, while on an empty message sequence it
is the index error, not a route, that results. -/
theorem route_model_output_requires_nonempty (st : State) :
    (st.messages ≠ [] →
      ∃ last, st.messages.getLast? = some last ∧
        route_model_output st ≠ .error .indexError) ∧
    (st.messages = [] →
      route_model_output st = .error .indexError ∧
      ∀ r, route_model_output st ≠ .ok r) := by
  constructor
  · intro hne
    rcases h : st.messages.getLast? with _ | last
    · exact absurd (List.getLast?_eq_none_iff.mp h) hne
    · refine ⟨last, rfl, ?_⟩
      cases last with
      | ai m =>
        by_cases hc : m.tool_calls.isEmpty <;>
          simp [route_model_output, h, hc]
      | system c => simp [route_model_output, h]
      | human c => simp [route_model_output, h]
      | tool a b c d => simp [route_model_output, h]
  · intro he
    have h0 : st.messages.getLast? = none := by
      rw [he]
      rfl
    exact ⟨by simp [route_model_output, h0],
      fun r => by simp [route_model_output, h0]⟩

/-- Witness: the empty state yields the index error, and a non-empty
state routes normally. -/
theorem route_model_output_requires_nonempty_witness :
    route_model_output ⟨[], false⟩ = .error .indexError ∧
    route_model_output sampleEndState = .ok .«__end__» := by
  constructor
  · exact ((route_model_output_requires_nonempty ⟨[], false⟩).2 rfl).1
  · obtain ⟨last, hl, hne⟩ :=
      (route_model_output_requires_nonempty sampleEndState).1 (by decide)
    rfl

end ReactAgent
